import Mathlib

/-!
Shallow embedding of the snake-game simulation engine (src/snake.js).

The source keeps the engine state in module-level mutable variables
(snake, direction, food, obstacles, score, highScore, gameSpeed, gameLoop,
isPaused).  Here that state is a record `EngineState`, and every engine
function becomes a pure function from state (plus explicit random draws)
to state.  Rendering, audio and the DOM are peripheral I/O and are dropped;
`setInterval`/`clearInterval` bookkeeping is abstracted to the boolean
`gameLoopActive` (the JS variable `gameLoop` is only ever tested for
truthiness by the engine).  The unbounded rejection-sampling loops in
`spawnFood` / `spawnObstacle` consume an explicit list of random candidate
cells and return `none` when the list is exhausted (the JS loop would keep
drawing); the bounded retry loop in `moveObstacles` consumes a stream
`Nat → Nat` of direction draws, capped at 10 attempts exactly as in the
source.
-/

/-- Grid cell: an integer coordinate pair, mirroring the `{x, y}` position
objects of the source. -/
structure Cell where
  x : Int
  y : Int
  deriving DecidableEq

/-- Number of tiles per grid axis: `tileCount = canvas.width / gridSize`,
a 20-by-20 grid in the source (400px canvas, 20px cells). -/
def tileCount : Int := 20

/-- `const minSpeed = 50` — fastest possible tick interval (ms). -/
def minSpeed : Int := 50

/-- `const speedIncrement = 5` — interval decrease per food eaten. -/
def speedIncrement : Int := 5

/-- `const maxAttempts = 10` — retry cap inside `moveObstacles`. -/
def maxAttempts : Nat := 10

/-- The engine state: the module-level mutable variables of src/snake.js
gathered into one record.  `gameLoopActive` stands for `gameLoop !== null`. -/
structure EngineState where
  snake : List Cell
  direction : Cell
  food : Cell
  obstacles : List Cell
  score : Int
  highScore : Int
  gameSpeed : Int
  gameLoopActive : Bool
  isPaused : Bool
  deriving DecidableEq

/-- Wall wrap-around from `moveSnake` (and duplicated in `moveObstacles`):
`if (v < 0) v = tileCount - 1; if (v >= tileCount) v = 0;` applied to one
coordinate, with the grid size `N` explicit. -/
def wrap (N v : Int) : Int :=
  let v1 := if v < 0 then N - 1 else v
  if N ≤ v1 then 0 else v1

/-- `moveSnake()`: build the new head from the current head plus the
direction, wrap both coordinates, `unshift` the new head and `pop` the
tail.  The pop is unconditional in the source.  (On an empty snake the JS
would read `snake[0]` of nothing; the snake always has length ≥ 1, and we
return `[]` in that vacuous case.) -/
def moveSnake (N : Int) (snake : List Cell) (dir : Cell) : List Cell :=
  match snake with
  | [] => []
  | h :: t =>
    let newHead : Cell := ⟨wrap N (h.x + dir.x), wrap N (h.y + dir.y)⟩
    (newHead :: h :: t).dropLast

/-- `checkCollision()`: head against every later segment (index ≥ 1), then
head against every obstacle, comparing coordinates exactly.  No wall test
exists in the source. -/
def checkCollision (snake obstacles : List Cell) : Bool :=
  match snake with
  | [] => false
  | h :: body =>
    body.any (fun seg => h.x == seg.x && h.y == seg.y) ||
      obstacles.any (fun ob => h.x == ob.x && h.y == ob.y)

/-- `checkFoodCollision()`: head coordinates equal the food coordinates. -/
def checkFoodCollision (snake : List Cell) (food : Cell) : Bool :=
  match snake with
  | [] => false
  | h :: _ => h.x == food.x && h.y == food.y

/-- `handleKeyPress(e)`: two successive if-chains (arrow keys, then WASD),
each accepting a direction only when the corresponding axis of the current
direction is zero.  The WASD chain reads the direction as possibly just
reassigned by the arrow chain, exactly as the JS global would be. -/
def handleKeyPress (key : String) (direction : Cell) : Cell :=
  let d1 : Cell :=
    if key = "ArrowUp" ∧ direction.y = 0 then ⟨0, -1⟩
    else if key = "ArrowDown" ∧ direction.y = 0 then ⟨0, 1⟩
    else if key = "ArrowLeft" ∧ direction.x = 0 then ⟨-1, 0⟩
    else if key = "ArrowRight" ∧ direction.x = 0 then ⟨1, 0⟩
    else direction
  if key = "w" ∧ d1.y = 0 then ⟨0, -1⟩
  else if key = "s" ∧ d1.y = 0 then ⟨0, 1⟩
  else if key = "a" ∧ d1.x = 0 then ⟨-1, 0⟩
  else if key = "d" ∧ d1.x = 0 then ⟨1, 0⟩
  else d1

/-- Intended direction of each recognised key, used to state the
no-reversal claims ("an input event whose direction is ..."). -/
def keyDir (key : String) : Option Cell :=
  if key = "ArrowUp" then some ⟨0, -1⟩
  else if key = "ArrowDown" then some ⟨0, 1⟩
  else if key = "ArrowLeft" then some ⟨-1, 0⟩
  else if key = "ArrowRight" then some ⟨1, 0⟩
  else if key = "w" then some ⟨0, -1⟩
  else if key = "s" then some ⟨0, 1⟩
  else if key = "a" then some ⟨-1, 0⟩
  else if key = "d" then some ⟨1, 0⟩
  else none

/-- `spawnFood()`: rejection sampling over random cells; accept the first
candidate on neither the snake nor an obstacle.  The JS `while` loop draws
fresh random cells forever; here the draws are the explicit list `rands`
and exhausting it yields `none`. -/
def spawnFood (snake obstacles : List Cell) : List Cell → Option Cell
  | [] => none
  | c :: rest =>
    if !(snake.any fun seg => seg.x == c.x && seg.y == c.y)
        && !(obstacles.any fun ob => ob.x == c.x && ob.y == c.y) then
      some c
    else spawnFood snake obstacles rest

/-- `spawnObstacle()`: rejection sampling like `spawnFood`, additionally
excluding the food cell. -/
def spawnObstacle (snake : List Cell) (food : Cell) (obstacles : List Cell) :
    List Cell → Option Cell
  | [] => none
  | c :: rest =>
    if !(snake.any fun seg => seg.x == c.x && seg.y == c.y)
        && !(food.x == c.x && food.y == c.y)
        && !(obstacles.any fun ob => ob.x == c.x && ob.y == c.y) then
      some c
    else spawnObstacle snake food obstacles rest

/-- `eatFood()`: score += 10; update high score; duplicate the current
tail (`snake.push({...snake[snake.length-1]})`); spawn an obstacle when
the new score is a positive multiple of 50; decrease the tick interval
towards the floor; spawn new food.  `ro` and `rf` are the random draws
for the obstacle and food spawners; a `none` from either spawner (its
draw list exhausted) makes the whole call `none`, standing for the JS
loop that never returns. -/
def eatFood (s : EngineState) (ro rf : List Cell) : Option EngineState :=
  let score2 := s.score + 10
  let highScore2 := if s.highScore < score2 then score2 else s.highScore
  let snake2 :=
    match s.snake.getLast? with
    | some tl => s.snake ++ [tl]
    | none => s.snake
  match (if 50 ≤ score2 ∧ score2 % 50 = 0 then
          (spawnObstacle snake2 s.food s.obstacles ro).map
            (fun ob => s.obstacles ++ [ob])
         else some s.obstacles) with
  | none => none
  | some obstacles2 =>
    let gameSpeed2 :=
      if minSpeed < s.gameSpeed then max minSpeed (s.gameSpeed - speedIncrement)
      else s.gameSpeed
    match spawnFood snake2 obstacles2 rf with
    | none => none
    | some f =>
      some { s with snake := snake2, food := f, obstacles := obstacles2,
                    score := score2, highScore := highScore2,
                    gameSpeed := gameSpeed2 }

/-- Candidate validity check from `moveObstacles`: the candidate cell must
avoid every snake segment, the food, and every *other* obstacle (the list
`others` here excludes the obstacle being moved, as `other !== obstacle`
does in the source). -/
def validPos (snake : List Cell) (food : Cell) (others : List Cell) (c : Cell) : Bool :=
  !(snake.any fun seg => seg.x == c.x && seg.y == c.y)
    && !(food.x == c.x && food.y == c.y)
    && !(others.any fun ob => ob.x == c.x && ob.y == c.y)

/-- One candidate step of `moveObstacles`: move one square per the drawn
direction (0=up, 1=right, 2=down, 3=left; any other value leaves the
position as the `switch` default would), then wrap both coordinates. -/
def applyDir (N : Int) (pos : Cell) (d : Nat) : Cell :=
  let p : Cell :=
    match d with
    | 0 => ⟨pos.x, pos.y - 1⟩
    | 1 => ⟨pos.x + 1, pos.y⟩
    | 2 => ⟨pos.x, pos.y + 1⟩
    | 3 => ⟨pos.x - 1, pos.y⟩
    | _ => pos
  ⟨wrap N p.x, wrap N p.y⟩

/-- The retry loop of `moveObstacles`: up to `fuel` attempts (called with
`maxAttempts = 10`), each drawing direction `draws idx`, accepting the
first valid candidate and otherwise leaving the obstacle at `pos`. -/
def tryMove (N : Int) (snake : List Cell) (food : Cell) (others : List Cell)
    (pos : Cell) (draws : Nat → Nat) : Nat → Nat → Cell
  | 0, _ => pos
  | fuel + 1, idx =>
    let cand := applyDir N pos (draws idx)
    if validPos snake food others cand then cand
    else tryMove N snake food others pos draws fuel (idx + 1)

/-- One `obstacles.forEach` iteration of `moveObstacles`: with the 20%
draw (`moveDraw`, for `Math.random() < 0.2`) run the retry loop, otherwise
leave the obstacle in place. -/
def moveObstacleStep (N : Int) (snake : List Cell) (food : Cell)
    (others : List Cell) (pos : Cell) (moveDraw : Bool) (draws : Nat → Nat) : Cell :=
  if moveDraw then tryMove N snake food others pos draws maxAttempts 0
  else pos

/-- Sequential processing of the obstacle list by `moveObstacles`: the
source mutates each obstacle in place, so later obstacles are validated
against the already-updated positions of earlier ones (`done`) and the
not-yet-processed rest. -/
def moveObstaclesAux (N : Int) (snake : List Cell) (food : Cell)
    (obr : Nat → Bool × (Nat → Nat)) : Nat → List Cell → List Cell → List Cell
  | _, done, [] => done
  | idx, done, ob :: rest =>
    let r := obr idx
    let ob2 := moveObstacleStep N snake food (done ++ rest) ob r.1 r.2
    moveObstaclesAux N snake food obr (idx + 1) (done ++ [ob2]) rest

/-- `moveObstacles()`: each obstacle, in list order, gets an independent
20% movement draw and up to 10 direction draws (`obr i` supplies both for
the i-th obstacle). -/
def moveObstacles (N : Int) (snake : List Cell) (food : Cell)
    (obr : Nat → Bool × (Nat → Nat)) (obstacles : List Cell) : List Cell :=
  moveObstaclesAux N snake food obr 0 [] obstacles

/-- `endGame()`: stop the loop (`gameLoop = null`); DOM and audio effects
are peripheral. -/
def endGame (s : EngineState) : EngineState :=
  { s with gameLoopActive := false }

/-- `update()`: the tick body — early return while paused, move the snake,
end the game on collision, eat food when the head is on it, and move the
obstacles once the score has reached 200. -/
def update (N : Int) (s : EngineState) (ro rf : List Cell)
    (obr : Nat → Bool × (Nat → Nat)) : Option EngineState :=
  if s.isPaused then some s
  else
    let s1 := { s with snake := moveSnake N s.snake s.direction }
    if checkCollision s1.snake s1.obstacles then some (endGame s1)
    else
      match (if checkFoodCollision s1.snake s1.food then eatFood s1 ro rf
             else some s1) with
      | none => none
      | some s2 =>
        if 200 ≤ s2.score then
          some { s2 with
                   obstacles := moveObstacles N s2.snake s2.food obr s2.obstacles }
        else some s2

/-- `resetGame()`: reset snake, direction, score, obstacles and speed to
their initial values, clear any running loop, spawn fresh food and start
a new loop unpaused.  `rf` is the food spawner's random draw list. -/
def resetGame (s : EngineState) (rf : List Cell) : Option EngineState :=
  let s1 := { s with snake := [⟨10, 10⟩], direction := ⟨0, 0⟩, score := 0,
                     obstacles := [], gameSpeed := 150 }
  match spawnFood s1.snake s1.obstacles rf with
  | none => none
  | some f => some { s1 with food := f, gameLoopActive := true, isPaused := false }

/-- `startGame()`: when no loop is active (`!gameLoop`), reset only the
speed to 150 and start the loop; otherwise delegate to `resetGame`. -/
def startGame (s : EngineState) (rf : List Cell) : Option EngineState :=
  if s.gameLoopActive = false then
    some { s with gameSpeed := 150, gameLoopActive := true }
  else resetGame s rf

/-- `togglePause()`: flip the pause flag, but only while a loop exists. -/
def togglePause (s : EngineState) : EngineState :=
  if s.gameLoopActive then { s with isPaused := !s.isPaused } else s

/-- A game-over state (`gameLoopActive = false`) part-way through a game:
score 30, a two-segment snake, one obstacle.  Used to exercise
`startGame` after `endGame`. -/
def overState : EngineState :=
  { snake := [⟨3, 3⟩, ⟨4, 3⟩], direction := ⟨1, 0⟩, food := ⟨7, 7⟩,
    obstacles := [⟨1, 1⟩], score := 30, highScore := 30, gameSpeed := 120,
    gameLoopActive := false, isPaused := false }

/-- A mid-game state one tick away from eating: the head at (5,5) moving
right onto food at (6,5), with a duplicate-free three-segment snake. -/
def eatTickState : EngineState :=
  { snake := [⟨5, 5⟩, ⟨4, 5⟩, ⟨3, 5⟩], direction := ⟨1, 0⟩, food := ⟨6, 5⟩,
    obstacles := [], score := 0, highScore := 0, gameSpeed := 150,
    gameLoopActive := true, isPaused := false }

/-- `eatTickState` after its `moveSnake` step (the state `eatFood` sees). -/
def movedState : EngineState :=
  { eatTickState with snake := [⟨6, 5⟩, ⟨5, 5⟩, ⟨4, 5⟩] }

/-- The state produced by one `update` tick from `eatTickState` with food
respawned at (0,0). -/
def eatTickResult : EngineState :=
  { snake := [⟨6, 5⟩, ⟨5, 5⟩, ⟨4, 5⟩, ⟨4, 5⟩], direction := ⟨1, 0⟩,
    food := ⟨0, 0⟩, obstacles := [], score := 10, highScore := 10,
    gameSpeed := 145, gameLoopActive := true, isPaused := false }

/-- Obstacle randomness that never triggers a move (the 20% draws all
fail); used where the obstacle mover is inactive anyway. -/
def noObr : Nat → Bool × (Nat → Nat) := fun _ => (false, fun _ => 0)

/-- `overState` after a successful `resetGame` with food drawn at (0,0). -/
def resetResultC1 : EngineState :=
  { snake := [⟨10, 10⟩], direction := ⟨0, 0⟩, food := ⟨0, 0⟩, obstacles := [],
    score := 0, highScore := 30, gameSpeed := 150,
    gameLoopActive := true, isPaused := false }

/-- A state about to eat its fifth food: score 40, head on the food, so
the next `eatFood` crosses the score-50 boundary. -/
def preEatState : EngineState :=
  { snake := [⟨5, 5⟩], direction := ⟨1, 0⟩, food := ⟨5, 5⟩, obstacles := [],
    score := 40, highScore := 0, gameSpeed := 150, gameLoopActive := true,
    isPaused := false }

/-- `preEatState` after `eatFood` with obstacle draw (9,9) and food draw
(0,0): score 50, one obstacle spawned, interval 145. -/
def postEatState : EngineState :=
  { snake := [⟨5, 5⟩, ⟨5, 5⟩], direction := ⟨1, 0⟩, food := ⟨0, 0⟩,
    obstacles := [⟨9, 9⟩], score := 50, highScore := 50, gameSpeed := 145,
    gameLoopActive := true, isPaused := false }

/-! ## Helper lemmas -/

/-- Componentwise characterisation of cell equality. -/
theorem Cell.eq_iff (a b : Cell) : a = b ↔ a.x = b.x ∧ a.y = b.y := by
  cases a; cases b; simp

/-- The coordinate-comparison `any` of the source is membership. -/
theorem anyComp_eq_true_iff (l : List Cell) (c : Cell) :
    (l.any fun e => c.x == e.x && c.y == e.y) = true ↔ c ∈ l := by
  induction l with
  | nil => simp
  | cons a t ih =>
    simp only [List.any_cons, Bool.or_eq_true, ih, List.mem_cons,
      Bool.and_eq_true, beq_iff_eq]
    constructor
    · rintro (⟨hx, hy⟩ | h)
      · exact Or.inl ((Cell.eq_iff c a).mpr ⟨hx, hy⟩)
      · exact Or.inr h
    · rintro (rfl | h)
      · exact Or.inl ⟨rfl, rfl⟩
      · exact Or.inr h

/-- Same as `anyComp_eq_true_iff` with the comparison orientation used by
the spawners (`candidate` on the right). -/
theorem anyComp_rev_eq_true_iff (l : List Cell) (c : Cell) :
    (l.any fun e => e.x == c.x && e.y == c.y) = true ↔ c ∈ l := by
  induction l with
  | nil => simp
  | cons a t ih =>
    simp only [List.any_cons, Bool.or_eq_true, ih, List.mem_cons,
      Bool.and_eq_true, beq_iff_eq]
    constructor
    · rintro (⟨hx, hy⟩ | h)
      · exact Or.inl ((Cell.eq_iff c a).mpr ⟨hx.symm, hy.symm⟩)
      · exact Or.inr h
    · rintro (rfl | h)
      · exact Or.inl ⟨rfl, rfl⟩
      · exact Or.inr h

/-- On an in-range coordinate the sequential edge ifs of the source equal
the modular wrap `(v + d + N) % N` for unit steps. -/
theorem wrap_eq_emod (N v d : Int) (hv : 0 ≤ v) (hvN : v < N)
    (hd1 : -1 ≤ d) (hd2 : d ≤ 1) :
    wrap N (v + d) = (v + d + N) % N := by
  unfold wrap
  by_cases h1 : v + d < 0
  · simp only [if_pos h1]
    have hn : ¬ N ≤ N - 1 := by omega
    simp only [if_neg hn]
    have hvd : v + d + N = N - 1 := by omega
    rw [hvd, Int.emod_eq_of_lt (by omega) (by omega)]
  · by_cases h2 : N ≤ v + d
    · simp only [if_neg h1, if_pos h2]
      have hvd : v + d = N := by omega
      rw [hvd, show N + N = 0 + N * 2 by ring, Int.add_mul_emod_self_left,
        Int.zero_emod]
    · simp only [if_neg h1, if_neg h2]
      rw [show v + d + N = (v + d) + N * 1 by ring, Int.add_mul_emod_self_left,
        Int.emod_eq_of_lt (by omega) (by omega)]

/-- C4 (confirmed): for every in-range head cell and every direction of
the source's direction set (the four units and the neutral start value),
`moveSnake` prepends exactly the head `((x + dx + N) mod N, (y + dy + N) mod N)`;
at `(0, y)` moving left this is `(N - 1, y)`, and analogously at all four
edges. -/
theorem C4_motion_wrap (N x y dx dy : Int) (rest : List Cell)
    (hx : 0 ≤ x ∧ x < N) (hy : 0 ≤ y ∧ y < N)
    (hdm : (dx, dy) ∈ [((0 : Int), (-1 : Int)), (0, 1), (-1, 0), (1, 0), (0, 0)]) :
    moveSnake N (⟨x, y⟩ :: rest) ⟨dx, dy⟩ =
      ⟨(x + dx + N) % N, (y + dy + N) % N⟩ :: (Cell.mk x y :: rest).dropLast := by
  have hb : (-1 ≤ dx ∧ dx ≤ 1) ∧ (-1 ≤ dy ∧ dy ≤ 1) := by
    simp only [List.mem_cons, List.not_mem_nil, or_false, Prod.mk.injEq] at hdm
    rcases hdm with ⟨h1, h2⟩ | ⟨h1, h2⟩ | ⟨h1, h2⟩ | ⟨h1, h2⟩ | ⟨h1, h2⟩ <;>
      subst h1 <;> subst h2 <;> omega
  have e1 : wrap N (x + dx) = (x + dx + N) % N :=
    wrap_eq_emod N x dx hx.1 hx.2 hb.1.1 hb.1.2
  have e2 : wrap N (y + dy) = (y + dy + N) % N :=
    wrap_eq_emod N y dy hy.1 hy.2 hb.2.1 hb.2.2
  simp only [moveSnake, List.dropLast_cons₂, e1, e2]

/-- C4 witness: a head at the left edge `(0, 7)` moving left on the
20-tile grid wraps to `(19, 7)`. -/
theorem C4_motion_wrap_witness :
    moveSnake 20 [⟨0, 7⟩] ⟨-1, 0⟩ =
      ⟨(0 + -1 + 20) % 20, (7 + 0 + 20) % 20⟩ :: ([Cell.mk 0 7]).dropLast :=
  C4_motion_wrap 20 0 7 (-1) 0 [] (by decide) (by decide) (by decide)

/-- C5 (confirmed): `checkCollision` is true exactly when the head equals
some non-head segment or some obstacle cell; in particular a lone head
with no obstacles — anywhere, edges included — never collides, since no
wall test exists. -/
theorem C5_collision_iff (hc : Cell) (body obstacles : List Cell) :
    (checkCollision (hc :: body) obstacles = true ↔
      (∃ seg ∈ body, hc = seg) ∨ ∃ ob ∈ obstacles, hc = ob) ∧
    checkCollision [hc] [] = false := by
  refine ⟨?_, rfl⟩
  rw [checkCollision]
  simp only [Bool.or_eq_true, anyComp_eq_true_iff]
  constructor
  · rintro (h | h)
    · exact Or.inl ⟨hc, h, rfl⟩
    · exact Or.inr ⟨hc, h, rfl⟩
  · rintro (⟨seg, hs, rfl⟩ | ⟨ob, hob, rfl⟩)
    · exact Or.inl hs
    · exact Or.inr hob

/-- C7 (confirmed): whenever a spawner returns a cell, that cell is
outside its exclusion set: spawned food is on no snake segment and no
obstacle; a spawned obstacle is on no snake segment, not on the food, and
on no existing obstacle. -/
theorem C7_spawner_exclusive (snake obstacles : List Cell) (food c : Cell)
    (rands : List Cell) :
    (spawnFood snake obstacles rands = some c → c ∉ snake ∧ c ∉ obstacles) ∧
    (spawnObstacle snake food obstacles rands = some c →
      c ∉ snake ∧ c ≠ food ∧ c ∉ obstacles) := by
  induction rands with
  | nil => exact ⟨by simp [spawnFood], by simp [spawnObstacle]⟩
  | cons r rest ih =>
    constructor
    · rw [spawnFood]
      split_ifs with hcond
      · intro h
        injection h with h; subst h
        rw [Bool.and_eq_true, Bool.not_eq_true', Bool.not_eq_true'] at hcond
        refine ⟨fun hmem => ?_, fun hmem => ?_⟩
        · have ht := (anyComp_rev_eq_true_iff snake _).mpr hmem
          rw [hcond.1] at ht
          exact Bool.false_ne_true ht
        · have ht := (anyComp_rev_eq_true_iff obstacles _).mpr hmem
          rw [hcond.2] at ht
          exact Bool.false_ne_true ht
      · exact ih.1
    · rw [spawnObstacle]
      split_ifs with hcond
      · intro h
        injection h with h; subst h
        rw [Bool.and_eq_true, Bool.and_eq_true, Bool.not_eq_true',
          Bool.not_eq_true', Bool.not_eq_true'] at hcond
        obtain ⟨⟨h1, h2⟩, h3⟩ := hcond
        refine ⟨fun hmem => ?_, fun heq => ?_, fun hmem => ?_⟩
        · have ht := (anyComp_rev_eq_true_iff snake _).mpr hmem
          rw [h1] at ht
          exact Bool.false_ne_true ht
        · rw [heq] at h2; simp at h2
        · have ht := (anyComp_rev_eq_true_iff obstacles _).mpr hmem
          rw [h3] at ht
          exact Bool.false_ne_true ht
      · exact ih.2

/-- C7 witness: with snake `[(1,1)]`, obstacles `[(2,2)]`, food `(3,3)`
and draws `[(1,1), (5,5)]`, both spawners reject `(1,1)` and return
`(5,5)`, which lies outside both exclusion sets. -/
theorem C7_spawner_exclusive_witness :
    ((⟨5, 5⟩ : Cell) ∉ ([⟨1, 1⟩] : List Cell) ∧
      (⟨5, 5⟩ : Cell) ∉ ([⟨2, 2⟩] : List Cell)) ∧
    ((⟨5, 5⟩ : Cell) ∉ ([⟨1, 1⟩] : List Cell) ∧ (⟨5, 5⟩ : Cell) ≠ ⟨3, 3⟩ ∧
      (⟨5, 5⟩ : Cell) ∉ ([⟨2, 2⟩] : List Cell)) :=
  ⟨(C7_spawner_exclusive [⟨1, 1⟩] [⟨2, 2⟩] ⟨3, 3⟩ ⟨5, 5⟩ [⟨1, 1⟩, ⟨5, 5⟩]).1
      (by decide),
   (C7_spawner_exclusive [⟨1, 1⟩] [⟨2, 2⟩] ⟨3, 3⟩ ⟨5, 5⟩ [⟨1, 1⟩, ⟨5, 5⟩]).2
      (by decide)⟩

/-- Inversion of `keyDir`: a key mapped to a direction is one of the
eight recognised keys with its fixed direction. -/
theorem keyDir_eq_some (key : String) (c : Cell) (h : keyDir key = some c) :
    (key = "ArrowUp" ∧ c = ⟨0, -1⟩) ∨ (key = "ArrowDown" ∧ c = ⟨0, 1⟩) ∨
    (key = "ArrowLeft" ∧ c = ⟨-1, 0⟩) ∨ (key = "ArrowRight" ∧ c = ⟨1, 0⟩) ∨
    (key = "w" ∧ c = ⟨0, -1⟩) ∨ (key = "s" ∧ c = ⟨0, 1⟩) ∨
    (key = "a" ∧ c = ⟨-1, 0⟩) ∨ (key = "d" ∧ c = ⟨1, 0⟩) := by
  unfold keyDir at h
  split_ifs at h <;> simp_all

/-- C9 (confirmed): an input event whose direction is the axis-reverse of
the current nonzero direction of motion is ignored: `handleKeyPress`
leaves the direction unchanged. -/
theorem C9_no_reversal (key : String) (dir : Cell)
    (hdir : dir = ⟨1, 0⟩ ∨ dir = ⟨-1, 0⟩ ∨ dir = ⟨0, 1⟩ ∨ dir = ⟨0, -1⟩)
    (hkey : keyDir key = some ⟨-dir.x, -dir.y⟩) :
    handleKeyPress key dir = dir := by
  rcases keyDir_eq_some key _ hkey with
      ⟨rfl, hc⟩ | ⟨rfl, hc⟩ | ⟨rfl, hc⟩ | ⟨rfl, hc⟩ |
      ⟨rfl, hc⟩ | ⟨rfl, hc⟩ | ⟨rfl, hc⟩ | ⟨rfl, hc⟩ <;>
    rcases hdir with rfl | rfl | rfl | rfl <;> revert hc <;> decide

/-- C9 witness: with the snake moving right, an ArrowLeft input leaves the
direction `(1, 0)` unchanged. -/
theorem C9_no_reversal_witness : handleKeyPress "ArrowLeft" ⟨1, 0⟩ = ⟨1, 0⟩ :=
  C9_no_reversal "ArrowLeft" ⟨1, 0⟩ (Or.inl rfl) (by decide)

/-- C10 (confirmed): two inputs between consecutive ticks reverse the
axis of motion: from direction Right, an Up input is accepted, and a Left
input is then validated against the new Up direction (x = 0) rather than
the Right direction last applied to motion, so the next tick runs with
direction `(-1, 0)`, the exact axis-reverse of `(1, 0)`. -/
theorem C10_two_event_reversal :
    handleKeyPress "ArrowUp" ⟨1, 0⟩ = ⟨0, -1⟩ ∧
    handleKeyPress "ArrowLeft" (handleKeyPress "ArrowUp" ⟨1, 0⟩) = ⟨-1, 0⟩ ∧
    (Cell.mk (-1) 0) = ⟨-(1 : Int), -(0 : Int)⟩ := by decide

/-- C6 (confirmed): on a food-eat event at a reachable tick interval
(`50 ≤ t`; in play the interval starts at 150 and only steps down by 5
towards the floor), `eatFood` yields score `s + 10`, tick interval
`max 50 (t - 5)` — never below the floor of 50 — and exactly one new
obstacle iff the new score is at least 50 and a multiple of 50, zero
otherwise. -/
theorem C6_difficulty_controller (s : EngineState) (ro rf : List Cell)
    (s' : EngineState) (hspd : 50 ≤ s.gameSpeed)
    (h : eatFood s ro rf = some s') :
    s'.score = s.score + 10 ∧
    s'.gameSpeed = max 50 (s.gameSpeed - 5) ∧
    50 ≤ s'.gameSpeed ∧
    s'.obstacles.length =
      s.obstacles.length +
        (if 50 ≤ s.score + 10 ∧ (s.score + 10) % 50 = 0 then 1 else 0) := by
  simp only [eatFood] at h
  split at h
  · exact absurd h (by simp)
  next obstacles2 heq =>
    split at h
    · exact absurd h (by simp)
    next f hf =>
      rw [Option.some.injEq] at h
      subst h
      have hobs : obstacles2.length =
          s.obstacles.length +
            (if 50 ≤ s.score + 10 ∧ (s.score + 10) % 50 = 0 then 1 else 0) := by
        split at heq
        next hc =>
          rw [Option.map_eq_some'] at heq
          obtain ⟨ob, _, hmap⟩ := heq
          rw [← hmap, if_pos hc]
          simp
        next hc =>
          rw [Option.some.injEq] at heq
          rw [← heq, if_neg hc]
          simp
      refine ⟨rfl, ?_, ?_, hobs⟩
      · show (if minSpeed < s.gameSpeed
              then max minSpeed (s.gameSpeed - speedIncrement)
              else s.gameSpeed) = max 50 (s.gameSpeed - 5)
        rw [max_def]
        simp only [minSpeed, speedIncrement]
        split_ifs <;> omega
      · show 50 ≤ (if minSpeed < s.gameSpeed
              then max minSpeed (s.gameSpeed - speedIncrement)
              else s.gameSpeed)
        simp only [minSpeed, speedIncrement]
        split_ifs with h5
        · exact le_max_left _ _
        · exact hspd

/-- C6 witness: eating at score 40 and interval 150 gives score 50,
interval 145, and exactly one spawned obstacle. -/
theorem C6_difficulty_controller_witness :
    postEatState.score = preEatState.score + 10 ∧
    postEatState.gameSpeed = max 50 (preEatState.gameSpeed - 5) ∧
    50 ≤ postEatState.gameSpeed ∧
    postEatState.obstacles.length =
      preEatState.obstacles.length +
        (if 50 ≤ preEatState.score + 10 ∧ (preEatState.score + 10) % 50 = 0
         then 1 else 0) :=
  C6_difficulty_controller preEatState [⟨9, 9⟩] [⟨0, 0⟩] postEatState
    (by decide) (by decide)

/-- The retry loop either leaves the obstacle in place or returns a valid
candidate produced by one of the four cardinal direction draws. -/
theorem tryMove_cases (N : Int) (snake : List Cell) (food : Cell)
    (others : List Cell) (pos : Cell) (draws : Nat → Nat)
    (hdraws : ∀ i, draws i < 4) :
    ∀ fuel idx, tryMove N snake food others pos draws fuel idx = pos ∨
      ∃ d, d < 4 ∧
        tryMove N snake food others pos draws fuel idx = applyDir N pos d ∧
        validPos snake food others (applyDir N pos d) = true := by
  intro fuel
  induction fuel with
  | zero => intro idx; exact Or.inl rfl
  | succ n ih =>
    intro idx
    simp only [tryMove]
    split_ifs with hv
    · exact Or.inr ⟨draws idx, hdraws idx, rfl, hv⟩
    · exact ih (idx + 1)

/-- When every one of the ten draws yields an invalid candidate, the retry
loop returns the original position. -/
theorem tryMove_stuck (N : Int) (snake : List Cell) (food : Cell)
    (others : List Cell) (pos : Cell) (draws : Nat → Nat) :
    ∀ fuel idx, fuel + idx ≤ 10 →
      (∀ i, i < 10 →
        validPos snake food others (applyDir N pos (draws i)) = false) →
      tryMove N snake food others pos draws fuel idx = pos := by
  intro fuel
  induction fuel with
  | zero => intro idx _ _; rfl
  | succ n ih =>
    intro idx hle hall
    have hidx : idx < 10 := by omega
    simp only [tryMove, hall idx hidx, Bool.false_eq_true, if_false]
    exact ih (idx + 1) (by omega) hall

/-- C8 (confirmed): one iteration of the obstacle mover (the `forEach`
body of `moveObstacles`, active once the score reaches 200) leaves the
obstacle either exactly at its prior cell — always so when no valid
candidate appears within the 10 retry attempts, a silent no-op — or at a
wrap-around cardinal-neighbour cell that avoids the snake, the food, and
all other obstacles. -/
theorem C8_obstacle_mover (N : Int) (snake others : List Cell)
    (food pos : Cell) (moveDraw : Bool) (draws : Nat → Nat)
    (hdraws : ∀ i, draws i < 4) :
    (moveObstacleStep N snake food others pos moveDraw draws = pos ∨
      ∃ d, d < 4 ∧
        moveObstacleStep N snake food others pos moveDraw draws =
          applyDir N pos d ∧
        validPos snake food others (applyDir N pos d) = true) ∧
    ((∀ i, i < 10 →
        validPos snake food others (applyDir N pos (draws i)) = false) →
      moveObstacleStep N snake food others pos moveDraw draws = pos) := by
  constructor
  · unfold moveObstacleStep
    split_ifs with hb
    · exact tryMove_cases N snake food others pos draws hdraws maxAttempts 0
    · exact Or.inl rfl
  · intro hall
    unfold moveObstacleStep
    split_ifs with hb
    · exact tryMove_stuck N snake food others pos draws maxAttempts 0
        (by decide) hall
    · rfl

/-- C8 witness: on a 3-by-3 grid with all four wrap-neighbours of (0,0)
occupied by the snake, ten up-draws all fail and the obstacle stays
exactly at (0,0). -/
theorem C8_obstacle_mover_witness :
    moveObstacleStep 3 [⟨0, 2⟩, ⟨1, 0⟩, ⟨0, 1⟩, ⟨2, 0⟩] ⟨2, 2⟩ [] ⟨0, 0⟩ true
      (fun _ => 0) = ⟨0, 0⟩ :=
  (C8_obstacle_mover 3 [⟨0, 2⟩, ⟨1, 0⟩, ⟨0, 1⟩, ⟨2, 0⟩] [] ⟨2, 2⟩ ⟨0, 0⟩ true
      (fun _ => 0) (fun _ => Nat.succ_pos 3)).2 (fun _ _ => rfl)

/-- C1 counterexample: from a game-over state (no active loop) with score
30, a two-segment snake and one obstacle, `startGame` starts the loop and
resets only the tick interval — score, snake and obstacles keep their
prior values instead of the initial ones, contradicting the claim that
Start from Over resets all engine state. -/
theorem C1_counterexample :
    startGame overState [] =
      some { overState with gameSpeed := 150, gameLoopActive := true } ∧
    (startGame overState []).map (fun t => t.score) = some 30 ∧
    (startGame overState []).map (fun t => t.snake) = some [⟨3, 3⟩, ⟨4, 3⟩] ∧
    (startGame overState []).map (fun t => t.obstacles) = some [⟨1, 1⟩] ∧
    (30 : Int) ≠ 0 ∧ [Cell.mk 3 3, ⟨4, 3⟩] ≠ [⟨10, 10⟩] ∧
    [Cell.mk 1 1] ≠ [] := by decide

/-- C1 (corrected): invoking Start with no active game loop transitions
to Running but resets only the tick interval (to 150), leaving snake,
direction, score and obstacles at their prior values; invoking Start
while a loop is active, and Restart from any state, performs the full
reset (snake to [(10,10)], direction neutral, score 0, no obstacles,
interval 150, food respawned, unpaused, Running). -/
theorem C1_lifecycle_amended (s s' : EngineState) (rf : List Cell) :
    (s.gameLoopActive = false →
      startGame s rf =
        some { s with gameSpeed := 150, gameLoopActive := true }) ∧
    (s.gameLoopActive = true → startGame s rf = resetGame s rf) ∧
    (resetGame s rf = some s' →
      s'.snake = [⟨10, 10⟩] ∧ s'.direction = ⟨0, 0⟩ ∧ s'.score = 0 ∧
      s'.obstacles = [] ∧ s'.gameSpeed = 150 ∧ s'.gameLoopActive = true ∧
      s'.isPaused = false) := by
  refine ⟨fun h => ?_, fun h => ?_, fun h => ?_⟩
  · rw [startGame, if_pos h]
  · rw [startGame, if_neg (by rw [h]; simp)]
  · simp only [resetGame] at h
    split at h
    · exact absurd h (by simp)
    next f hf =>
      rw [Option.some.injEq] at h
      subst h
      exact ⟨rfl, rfl, rfl, rfl, rfl, rfl, rfl⟩

/-- C1 witness: from `overState`, Start only sets the interval and the
loop flag, while an explicit Restart yields the fully reset state. -/
theorem C1_lifecycle_amended_witness :
    startGame overState [] =
      some { overState with gameSpeed := 150, gameLoopActive := true } ∧
    (resetResultC1.snake = [⟨10, 10⟩] ∧ resetResultC1.direction = ⟨0, 0⟩ ∧
      resetResultC1.score = 0 ∧ resetResultC1.obstacles = [] ∧
      resetResultC1.gameSpeed = 150 ∧ resetResultC1.gameLoopActive = true ∧
      resetResultC1.isPaused = false) :=
  ⟨(C1_lifecycle_amended overState resetResultC1 []).1 rfl,
   (C1_lifecycle_amended overState resetResultC1 [⟨0, 0⟩]).2.2 (by decide)⟩

/-- The snake produced by `eatFood` is the input snake with its current
(post-move) tail duplicated. -/
theorem eatFood_snake_eq (s : EngineState) (ro rf : List Cell)
    (s' : EngineState) (h : eatFood s ro rf = some s') :
    s'.snake = match s.snake.getLast? with
      | some tl => s.snake ++ [tl]
      | none => s.snake := by
  simp only [eatFood] at h
  split at h
  · exact absurd h (by simp)
  next obstacles2 heq =>
    split at h
    · exact absurd h (by simp)
    next f hf =>
      rw [Option.some.injEq] at h
      subst h
      rfl

/-- Moving a nonempty snake preserves its length (one cell prepended, one
popped). -/
theorem moveSnake_length (N : Int) (snake : List Cell) (dir : Cell)
    (h : snake ≠ []) : (moveSnake N snake dir).length = snake.length := by
  cases snake with
  | nil => exact absurd rfl h
  | cons a t =>
    simp only [moveSnake, List.length_dropLast, List.length_cons]
    omega

/-- For a snake of length at least two, the post-move tail sits at the
pre-move position of the second-to-last segment. -/
theorem moveSnake_getLast_two (N : Int) (a b : Cell) (l : List Cell)
    (dir : Cell) :
    (moveSnake N (a :: b :: l) dir).getLast? =
      (a :: b :: l).dropLast.getLast? := by
  simp only [moveSnake, List.dropLast_cons₂]
  rw [List.getLast?_cons_cons]

/-- For a single-segment snake the post-move snake is just the new head. -/
theorem moveSnake_single (N : Int) (a dir : Cell) :
    (moveSnake N [a] dir).getLast? = (moveSnake N [a] dir).head? := rfl

/-- C2 counterexample: one `update` tick of `eatTickState` (snake
[(5,5),(4,5),(3,5)] moving right onto food at (6,5)) leaves the snake
[(6,5),(5,5),(4,5),(4,5)]: the new tail sits at (4,5), not at the old
tail's pre-move position (3,5) as the claim requires. -/
theorem C2_counterexample :
    (update 20 eatTickState [] [⟨0, 0⟩] noObr).map (fun t => t.snake) =
      some [⟨6, 5⟩, ⟨5, 5⟩, ⟨4, 5⟩, ⟨4, 5⟩] ∧
    eatTickState.snake.getLast? = some ⟨3, 5⟩ ∧
    [Cell.mk 6 5, ⟨5, 5⟩, ⟨4, 5⟩, ⟨4, 5⟩].getLast? = some ⟨4, 5⟩ ∧
    (Cell.mk 4 5) ≠ ⟨3, 5⟩ := by decide

/-- C2 (corrected): after a tick on which the food is eaten the snake has
length n + 1, but its new tail duplicates the post-move tail (the source
pops the tail unconditionally and then pushes a copy of the new last
segment): for n ≥ 2 the new tail occupies the pre-move position of the
second-to-last segment, and for n = 1 it occupies the new head position —
not the pre-move position of the old tail. -/
theorem C2_growth_amended (N : Int) (s : EngineState) (ro rf : List Cell)
    (obr : Nat → Bool × (Nat → Nat)) (s' : EngineState)
    (hp : s.isPaused = false)
    (hc : checkCollision (moveSnake N s.snake s.direction) s.obstacles = false)
    (hf : checkFoodCollision (moveSnake N s.snake s.direction) s.food = true)
    (hu : update N s ro rf obr = some s') :
    s'.snake.length = s.snake.length + 1 ∧
    s'.snake.getLast? = (moveSnake N s.snake s.direction).getLast? ∧
    (2 ≤ s.snake.length →
      s'.snake.getLast? = s.snake.dropLast.getLast?) ∧
    (s.snake.length = 1 →
      s'.snake.getLast? = (moveSnake N s.snake s.direction).head?) := by
  obtain ⟨s2, heat, hsnake⟩ : ∃ s2,
      eatFood { s with snake := moveSnake N s.snake s.direction } ro rf =
        some s2 ∧ s'.snake = s2.snake := by
    simp only [update, hp, Bool.false_eq_true, if_false, hc, hf, if_true] at hu
    split at hu
    · exact absurd hu (by simp)
    next s2 heat =>
      split_ifs at hu <;> rw [Option.some.injEq] at hu <;> subst hu
      · exact ⟨s2, by rw [hp]; exact heat, rfl⟩
      · exact ⟨s2, by rw [hp]; exact heat, rfl⟩
  have hm : moveSnake N s.snake s.direction ≠ [] := by
    intro he
    rw [he] at hf
    simp [checkFoodCollision] at hf
  have hsnn : s.snake ≠ [] := by
    intro he
    apply hm
    rw [he]
    rfl
  have hs2 := eatFood_snake_eq _ ro rf s2 heat
  obtain ⟨tl, htl⟩ :
      ∃ tl, (moveSnake N s.snake s.direction).getLast? = some tl :=
    Option.isSome_iff_exists.mp (List.getLast?_isSome.mpr hm)
  rw [htl] at hs2
  refine ⟨?_, ?_, ?_, ?_⟩
  · rw [hsnake, hs2, List.length_append]
    have hlen := moveSnake_length N s.snake s.direction hsnn
    simp only [List.length_cons, List.length_nil]
    omega
  · rw [hsnake, hs2, List.getLast?_concat, htl]
  · intro h2
    rw [hsnake, hs2, List.getLast?_concat, ← htl]
    obtain ⟨a, b, l, hsl⟩ : ∃ a b l, s.snake = a :: b :: l := by
      cases hsn : s.snake with
      | nil => rw [hsn] at h2; simp at h2
      | cons a t =>
        cases t with
        | nil => rw [hsn] at h2; simp at h2
        | cons b l => exact ⟨a, b, l, rfl⟩
    rw [hsl]
    exact moveSnake_getLast_two N a b l s.direction
  · intro h1
    rw [hsnake, hs2, List.getLast?_concat, ← htl]
    obtain ⟨a, hsl⟩ : ∃ a, s.snake = [a] := by
      cases hsn : s.snake with
      | nil => rw [hsn] at h1; simp at h1
      | cons a t =>
        cases t with
        | nil => exact ⟨a, rfl⟩
        | cons b l => rw [hsn] at h1; simp at h1
    rw [hsl]
    exact moveSnake_single N a s.direction

/-- C2 witness: the eat tick from `eatTickState` grows the snake from 3
to 4 segments, the duplicate sitting on the post-move tail (4,5). -/
theorem C2_growth_amended_witness :
    eatTickResult.snake.length = eatTickState.snake.length + 1 ∧
    eatTickResult.snake.getLast? =
      (moveSnake 20 eatTickState.snake eatTickState.direction).getLast? ∧
    (2 ≤ eatTickState.snake.length →
      eatTickResult.snake.getLast? = eatTickState.snake.dropLast.getLast?) ∧
    (eatTickState.snake.length = 1 →
      eatTickResult.snake.getLast? =
        (moveSnake 20 eatTickState.snake eatTickState.direction).head?) :=
  C2_growth_amended 20 eatTickState [] [⟨0, 0⟩] noObr eatTickResult
    (by decide) (by decide) (by decide) (by decide)

/-- C3 counterexample: the eat tick from the duplicate-free snake of
`eatTickState` produces a snake whose last two segments coincide at
(4,5) — the pairwise-distinctness invariant is not preserved by the
operations of the engine. -/
theorem C3_counterexample :
    eatTickState.snake.Nodup ∧
    (update 20 eatTickState [] [⟨0, 0⟩] noObr).map (fun t => t.snake) =
      some [⟨6, 5⟩, ⟨5, 5⟩, ⟨4, 5⟩, ⟨4, 5⟩] ∧
    ¬ ([Cell.mk 6 5, ⟨5, 5⟩, ⟨4, 5⟩, ⟨4, 5⟩] : List Cell).Nodup := by decide

/-- C3 (corrected): plain motion does preserve pairwise distinctness of
the segments whenever the moved snake passes the self-collision check,
but `eatFood` breaks it for one tick by duplicating the current tail: all
segments except the last stay pairwise distinct, and the new last segment
equals the previous last one. -/
theorem C3_distinctness_amended (N : Int) (snake obstacles : List Cell)
    (dir : Cell) (s : EngineState) (ro rf : List Cell) (s' : EngineState) :
    (snake.Nodup → checkCollision (moveSnake N snake dir) obstacles = false →
      (moveSnake N snake dir).Nodup) ∧
    (eatFood s ro rf = some s' → s.snake.Nodup →
      s'.snake.dropLast.Nodup ∧ s'.snake.getLast? = s.snake.getLast?) := by
  constructor
  · intro hnd hcol
    cases snake with
    | nil => simp [moveSnake]
    | cons a t =>
      simp only [moveSnake, List.dropLast_cons₂] at hcol ⊢
      rw [List.nodup_cons]
      refine ⟨?_, ?_⟩
      · intro hmem
        simp only [checkCollision, Bool.or_eq_false_iff] at hcol
        have ht := (anyComp_eq_true_iff ((a :: t).dropLast) _).mpr hmem
        rw [hcol.1] at ht
        exact Bool.false_ne_true ht
      · exact List.Nodup.sublist (List.dropLast_sublist (a :: t)) hnd
  · intro heat hnd
    have hs2 := eatFood_snake_eq s ro rf s' heat
    cases hgl : s.snake.getLast? with
    | none =>
      rw [hgl] at hs2
      have hs2n : s'.snake = s.snake := hs2
      refine ⟨?_, ?_⟩
      · rw [hs2n]
        exact List.Nodup.sublist (List.dropLast_sublist s.snake) hnd
      · rw [hs2n]
        exact hgl
    | some tl =>
      rw [hgl] at hs2
      have hs2c : s'.snake = s.snake ++ [tl] := hs2
      refine ⟨?_, ?_⟩
      · rw [hs2c, List.dropLast_concat]
        exact hnd
      · rw [hs2c, List.getLast?_concat]

/-- C3 witness: the distinct three-segment snake of `movedState` passes
both parts — the moved snake stays distinct, and after `eatFood` all but
the duplicated tail remain distinct. -/
theorem C3_distinctness_amended_witness :
    (moveSnake 20 [⟨5, 5⟩, ⟨4, 5⟩, ⟨3, 5⟩] ⟨1, 0⟩).Nodup ∧
    (eatTickResult.snake.dropLast.Nodup ∧
      eatTickResult.snake.getLast? = movedState.snake.getLast?) :=
  ⟨(C3_distinctness_amended 20 [⟨5, 5⟩, ⟨4, 5⟩, ⟨3, 5⟩] [] ⟨1, 0⟩ movedState
      [] [⟨0, 0⟩] eatTickResult).1 (by decide) (by decide),
   (C3_distinctness_amended 20 [⟨5, 5⟩, ⟨4, 5⟩, ⟨3, 5⟩] [] ⟨1, 0⟩ movedState
      [] [⟨0, 0⟩] eatTickResult).2 (by decide) (by decide)⟩

/-- C5 witness: a lone head on the grid edge with no obstacles does not
collide. -/
theorem C5_collision_iff_witness :
    checkCollision [(⟨0, 19⟩ : Cell)] [] = false :=
  (C5_collision_iff ⟨0, 19⟩ [] []).2
